import Mathlib

/-!
Verification of the concurrency-coordination core of the repository:
`src/task_manager.py` (bounded-concurrency task lifecycle manager) and
`log.py` (asynchronous batched log writer).  Python state is embedded
shallowly: each method becomes a pure Lean function on an explicit state
record, external effects (file I/O outcomes, wait timeouts) are supplied
as oracle arguments, and the semaphore-gated execution of task bodies is
a small-step transition relation.
-/

namespace Gcli2Api

/-! ### ConcurrencyGate: `asyncio.Semaphore` gating of task bodies

`TaskManager._run_with_semaphore` wraps every submitted coroutine in
`async with self._semaphore: await coro`.  Each submitted body is in one
of three phases: waiting for the permit, running its core region (permit
held), or finished (permit released).  `asyncio.Semaphore(cap)` starts
with internal value `cap`; acquire requires a positive value and
decrements it, release increments it.
-/

inductive TaskPhase
  | waiting
  | running
  | finished
deriving DecidableEq, Repr

/-- A body is inside its core region exactly while it holds a permit. -/
def isRunning : TaskPhase → Bool
  | .running => true
  | _ => false

/-- Number of bodies currently inside their core region. -/
def countRunning (l : List TaskPhase) : Nat := l.countP isRunning

/-- Semaphore value plus the phase of every submitted body. -/
structure GateState where
  sem : Nat
  phases : List TaskPhase
deriving DecidableEq, Repr

/-- `TaskManager.__init__`: `asyncio.Semaphore(max_concurrent_tasks)`,
with `n` submitted bodies all still waiting for the permit. -/
def initGate (cap n : Nat) : GateState :=
  { sem := cap, phases := List.replicate n TaskPhase.waiting }

/-- One scheduler step of the gated system: a waiting body may enter its
core region only when the semaphore value is positive (`acquire`), and a
running body leaves it by releasing the permit (`release`, the `finally`
of `_run_with_semaphore`). -/
inductive GateStep : GateState → GateState → Prop
  | acquire (s : GateState) (i : Nat) (hi : i < s.phases.length)
      (hw : s.phases[i] = TaskPhase.waiting) (hs : 0 < s.sem) :
      GateStep s ⟨s.sem - 1, s.phases.set i TaskPhase.running⟩
  | release (s : GateState) (i : Nat) (hi : i < s.phases.length)
      (hr : s.phases[i] = TaskPhase.running) :
      GateStep s ⟨s.sem + 1, s.phases.set i TaskPhase.finished⟩

/-- States reachable from the freshly constructed manager with `n`
submitted bodies. -/
inductive GateReachable (cap n : Nat) : GateState → Prop
  | init : GateReachable cap n (initGate cap n)
  | step {s s' : GateState} :
      GateReachable cap n s → GateStep s s' → GateReachable cap n s'

theorem countP_set_incr {α : Type} (p : α → Bool) (b : α) :
    ∀ (l : List α) (i : Nat) (hi : i < l.length),
      p l[i] = false → p b = true →
      (l.set i b).countP p = l.countP p + 1 := by
  intro l
  induction l with
  | nil => intro i hi _ _; exact absurd hi (Nat.not_lt_zero i)
  | cons a t ih =>
    intro i hi hpa hpb
    cases i with
    | zero =>
      simp only [List.getElem_cons_zero] at hpa
      simp [List.set, List.countP_cons, hpa, hpb]
    | succ j =>
      simp only [List.getElem_cons_succ] at hpa
      have hj : j < t.length := Nat.lt_of_succ_lt_succ hi
      simp only [List.set, List.countP_cons, ih j hj hpa hpb]
      omega

theorem countP_set_decr {α : Type} (p : α → Bool) (b : α) :
    ∀ (l : List α) (i : Nat) (hi : i < l.length),
      p l[i] = true → p b = false →
      (l.set i b).countP p + 1 = l.countP p := by
  intro l
  induction l with
  | nil => intro i hi _ _; exact absurd hi (Nat.not_lt_zero i)
  | cons a t ih =>
    intro i hi hpa hpb
    cases i with
    | zero =>
      simp only [List.getElem_cons_zero] at hpa
      simp [List.set, List.countP_cons, hpa, hpb]
    | succ j =>
      simp only [List.getElem_cons_succ] at hpa
      have hj : j < t.length := Nat.lt_of_succ_lt_succ hi
      simp only [List.set, List.countP_cons]
      have := ih j hj hpa hpb
      omega

/-- The inductive invariant of the gate: the semaphore value and the
number of permit holders always sum to the capacity. -/
def GateInv (cap : Nat) (s : GateState) : Prop :=
  s.sem + countRunning s.phases = cap

theorem gateInv_init (cap n : Nat) : GateInv cap (initGate cap n) := by
  have h0 : countRunning (List.replicate n TaskPhase.waiting) = 0 := by
    refine List.countP_eq_zero.mpr ?_
    intro a ha
    rw [List.eq_of_mem_replicate ha]
    simp [isRunning]
  simp [GateInv, initGate, h0]

theorem gateInv_step {cap : Nat} {s s' : GateState}
    (hinv : GateInv cap s) (hstep : GateStep s s') : GateInv cap s' := by
  cases hstep with
  | acquire i hi hw hs =>
    have hincr := countP_set_incr isRunning TaskPhase.running s.phases i hi
      (by rw [hw]; rfl) rfl
    unfold GateInv countRunning at *
    simp only at hincr ⊢
    omega
  | release i hi hrel =>
    have hdecr := countP_set_decr isRunning TaskPhase.finished s.phases i hi
      (by rw [hrel]; rfl) rfl
    unfold GateInv countRunning at *
    simp only at hdecr ⊢
    omega

theorem gateInv_reachable {cap n : Nat} {s : GateState}
    (h : GateReachable cap n s) : GateInv cap s := by
  induction h with
  | init => exact gateInv_init cap n
  | step _ hstep ih => exact gateInv_step ih hstep

/-- C1: in every reachable state of a `TaskManager` with capacity
`max_concurrent` (= `cap`), the number of submitted bodies simultaneously
inside their core region is at most `cap`; and when exactly `cap` bodies
hold permits, every possible next step strictly lowers the holder count —
i.e. no waiting body's core region can start until one of the current
holders releases its permit. -/
theorem semaphore_bounds_running (cap n : Nat) (s : GateState)
    (hr : GateReachable cap n s) :
    countRunning s.phases ≤ cap ∧
    (countRunning s.phases = cap →
      ∀ s', GateStep s s' → countRunning s'.phases < cap) := by
  have hinv := gateInv_reachable hr
  constructor
  · unfold GateInv at hinv; omega
  · intro hfull s' hstep
    cases hstep with
    | acquire i hi hw hs =>
      exfalso
      unfold GateInv at hinv
      omega
    | release i hi hrun =>
      have hdecr := countP_set_decr isRunning TaskPhase.finished s.phases i hi
        (by rw [hrun]; rfl) rfl
      unfold GateInv at hinv
      unfold countRunning at *
      simp only at hdecr ⊢
      omega

/-- Witness for C1 at capacity 1 with two submitted bodies: after the
first body acquires the permit, the holder count is at its bound. -/
theorem semaphore_bounds_running_witness :
    countRunning (GateState.mk 0
      [TaskPhase.running, TaskPhase.waiting]).phases ≤ 1 := by
  have hstep : GateStep (initGate 1 2)
      ⟨0, (List.replicate 2 TaskPhase.waiting).set 0 TaskPhase.running⟩ :=
    GateStep.acquire (initGate 1 2) 0 (by simp [initGate]) (by simp [initGate])
      (by simp [initGate])
  have hreach : GateReachable 1 2
      ⟨0, (List.replicate 2 TaskPhase.waiting).set 0 TaskPhase.running⟩ :=
    GateReachable.step GateReachable.init hstep
  have h := (semaphore_bounds_running 1 2 _ hreach).1
  simpa [List.replicate] using h

/-! ### TaskManager: registry, singleton construction, admission, shutdown

`TaskManager` keeps `_max_concurrent_tasks`, an `asyncio.Semaphore`,
a set `_tasks` of in-flight `asyncio.Task`s, an `asyncio.Event`
`_shutdown_event`, and an `_initialized` guard used by the
singleton-style `__new__`/`__init__` pair.  Python exception classes
that the code raises or catches are enumerated explicitly.
-/

inductive ExnClass
  | permissionError
  | osError
  | ioError
  | timeoutError
  | queueFull
  | runtimeError
  | otherExn
deriving DecidableEq, Repr

/-- An `asyncio.Task` as seen by the manager: optional name, whether it
has completed, whether `cancel()` has been requested on it. -/
structure PyTask where
  name : Option String
  done : Bool
  cancelled : Bool
deriving DecidableEq, Repr

/-- The fields of the `TaskManager` instance.  `semValue` is the internal
value of `self._semaphore`, `shutdownEvent` whether `_shutdown_event` is
set, `initDone` the `_initialized` guard. -/
structure TMState where
  maxConcurrentTasks : Nat
  semValue : Nat
  tasks : List PyTask
  shutdownEvent : Bool
  initDone : Bool
deriving DecidableEq, Repr

/-- `TaskManager.__init__`: returns immediately when `_initialized` is
already set, otherwise installs fresh fields from `max_concurrent_tasks`. -/
def TMinit (d : TMState) (maxCT : Nat) : TMState :=
  if d.initDone then d
  else { maxConcurrentTasks := maxCT, semValue := maxCT, tasks := [],
         shutdownEvent := false, initDone := true }

/-- `TaskManager(maxCT)`: `__new__` reuses the stored class instance when
present (marking a fresh object un-initialized otherwise), then `__init__`
runs on the result. -/
def TaskManagerCtor (inst : Option TMState) (maxCT : Nat) : TMState :=
  match inst with
  | some d => TMinit d maxCT
  | none => TMinit { maxConcurrentTasks := 0, semValue := 0, tasks := [],
                     shutdownEvent := false, initDone := false } maxCT

/-- `TaskManager.create_managed_task`: raises `RuntimeError` (the spec's
`AdmissionError`) when shutdown has begun, before touching any state;
otherwise creates the wrapped task, registers it and returns it. -/
def create_managed_task (s : TMState) (name : Option String) :
    TMState × Except ExnClass PyTask :=
  if s.shutdownEvent then (s, Except.error ExnClass.runtimeError)
  else
    let t : PyTask := { name := name, done := false, cancelled := false }
    ({ s with tasks := s.tasks ++ [t] }, Except.ok t)

/-- The cancellation loop of `TaskManager.shutdown`: `task.cancel()` on
every not-yet-done registered task, counting how many were cancelled. -/
def cancelPending : List PyTask → List PyTask × Nat
  | [] => ([], 0)
  | t :: rest =>
      let p := cancelPending rest
      if t.done then (t :: p.1, p.2)
      else ({ t with cancelled := true } :: p.1, p.2 + 1)

/-- The `asyncio.wait_for(asyncio.gather(...), timeout)` call inside
`shutdown`; the oracle `timedOut` tells whether it raised
`asyncio.TimeoutError`. -/
def waitForAll (timedOut : Bool) : Except ExnClass Unit :=
  if timedOut then Except.error ExnClass.timeoutError else Except.ok ()

/-- Outcome of `TaskManager.shutdown`: the final instance state, the
registry snapshot right after the cancellation loop, the cancelled count,
and whether the timeout warning was emitted. -/
structure ShutdownResult where
  final : TMState
  afterCancel : List PyTask
  cancelledCount : Nat
  warnedTimeout : Bool
deriving DecidableEq, Repr

/-- `TaskManager.shutdown(timeout)`: sets the shutdown event, cancels all
pending tasks, waits (a `TimeoutError` is caught and only warned about),
and unconditionally clears the registry.  Total: it always returns. -/
def TMshutdown (s : TMState) (waitTimedOut : Bool) : ShutdownResult :=
  let s1 : TMState := { s with shutdownEvent := true }
  let p := cancelPending s1.tasks
  let warned :=
    if p.1.isEmpty then false
    else match waitForAll waitTimedOut with
      | Except.ok _ => false
      | Except.error _ => true
  { final := { s1 with tasks := [] }, afterCancel := p.1,
    cancelledCount := p.2, warnedTimeout := warned }

theorem cancelPending_eq (l : List PyTask) :
    cancelPending l =
      (l.map (fun t => if t.done then t else { t with cancelled := true }),
       (l.filter (fun t => !t.done)).length) := by
  induction l with
  | nil => rfl
  | cons t rest ih =>
    by_cases h : t.done = true
    · simp [cancelPending, ih, h, List.filter]
    · simp only [Bool.not_eq_true] at h
      simp [cancelPending, ih, h, List.filter]

/-- C9: constructing `TaskManager` a second time, with any capacity
argument, returns the first instance with its state unchanged — the new
capacity is ignored, so `TaskManager(a); TaskManager(b)` observes the
same state as `TaskManager(a)` alone; more generally re-construction on
any already-initialized instance state is the identity. -/
theorem taskManager_singleton_reinit_noop :
    (∀ a b : Nat,
      TaskManagerCtor (some (TaskManagerCtor none a)) b =
        TaskManagerCtor none a) ∧
    (∀ (d : TMState) (b : Nat), d.initDone = true →
      TaskManagerCtor (some d) b = d) := by
  constructor
  · intro a b
    simp [TaskManagerCtor, TMinit]
  · intro d b h
    simp [TaskManagerCtor, TMinit, h]

/-- Witness for C9: a second construction with capacity 7 on the
instance first built with capacity 3 returns that instance unchanged. -/
theorem taskManager_singleton_reinit_noop_witness :
    TaskManagerCtor (some (TaskManagerCtor none 3)) 7 =
      TaskManagerCtor none 3 ∧
    TaskManagerCtor
        (some { maxConcurrentTasks := 3, semValue := 2,
                tasks := [{ name := none, done := false, cancelled := false }],
                shutdownEvent := false, initDone := true }) 7 =
      { maxConcurrentTasks := 3, semValue := 2,
        tasks := [{ name := none, done := false, cancelled := false }],
        shutdownEvent := false, initDone := true } := by
  refine ⟨taskManager_singleton_reinit_noop.1 3 7, ?_⟩
  exact taskManager_singleton_reinit_noop.2 _ 7 rfl

/-- C4: when the shutdown flag is set, `create_managed_task` fails with
the admission error (`RuntimeError`) and leaves the instance — in
particular the task registry — unchanged. -/
theorem submit_after_shutdown_rejected (s : TMState) (name : Option String)
    (h : s.shutdownEvent = true) :
    (create_managed_task s name).2 = Except.error ExnClass.runtimeError ∧
    (create_managed_task s name).1 = s ∧
    (create_managed_task s name).1.tasks = s.tasks := by
  simp [create_managed_task, h]

/-- Witness for C4 on a concrete shut-down manager with one registered
task: submission is rejected and the registry keeps exactly that task. -/
theorem submit_after_shutdown_rejected_witness :
    ({ maxConcurrentTasks := 2, semValue := 2,
       tasks := [{ name := some "t0", done := false, cancelled := false }],
       shutdownEvent := true, initDone := true } : TMState).shutdownEvent = true ∧
    (create_managed_task
        { maxConcurrentTasks := 2, semValue := 2,
          tasks := [{ name := some "t0", done := false, cancelled := false }],
          shutdownEvent := true, initDone := true } (some "t1")).2 =
      Except.error ExnClass.runtimeError := by
  refine ⟨rfl, ?_⟩
  exact (submit_after_shutdown_rejected _ (some "t1") rfl).1

/-- C5: for every manager state and every wait outcome, `shutdown`
returns (it is a total function), sets the shutdown flag, requests
cancellation of every still-incomplete registered task, reports a wait
timeout only as a warning, and leaves the registry empty. -/
theorem shutdown_clears_registry (s : TMState) (waitTimedOut : Bool) :
    (TMshutdown s waitTimedOut).final.tasks = [] ∧
    (TMshutdown s waitTimedOut).final.shutdownEvent = true ∧
    (∀ t ∈ s.tasks, t.done = false →
      { t with cancelled := true } ∈ (TMshutdown s waitTimedOut).afterCancel) ∧
    (TMshutdown s waitTimedOut).cancelledCount =
      (s.tasks.filter (fun t => !t.done)).length ∧
    ((TMshutdown s waitTimedOut).warnedTimeout = true → waitTimedOut = true) := by
  refine ⟨rfl, rfl, ?_, ?_, ?_⟩
  · intro t ht hnd
    simp only [TMshutdown, cancelPending_eq, List.mem_map]
    exact ⟨t, ht, by simp [hnd]⟩
  · simp [TMshutdown, cancelPending_eq]
  · simp only [TMshutdown, waitForAll]
    cases waitTimedOut with
    | false => simp
    | true => simp

/-- Witness for C5: shutting down a manager holding one finished and one
pending task cancels exactly the pending one and empties the registry. -/
theorem shutdown_clears_registry_witness :
    (TMshutdown
        { maxConcurrentTasks := 4, semValue := 4,
          tasks := [{ name := some "a", done := true, cancelled := false },
                    { name := some "b", done := false, cancelled := false }],
          shutdownEvent := false, initDone := true } true).final.tasks = [] ∧
    ({ name := some "b", done := false, cancelled := true } : PyTask)
        ∈ (TMshutdown
        { maxConcurrentTasks := 4, semValue := 4,
          tasks := [{ name := some "a", done := true, cancelled := false },
                    { name := some "b", done := false, cancelled := false }],
          shutdownEvent := false, initDone := true } true).afterCancel := by
  refine ⟨(shutdown_clears_registry _ true).1, ?_⟩
  exact (shutdown_clears_registry _ true).2.2.1
    { name := some "b", done := false, cancelled := false } (by simp) rfl

/-! ### AsyncLogWriter: queue, circuit breaker, write paths, loop

`AsyncLogWriter` keeps an `asyncio.Queue()` (constructed with no
`maxsize`, i.e. maxsize 0 = unbounded), a `_running` flag set by the
loop body, a `_writer_task` handle, the `_file_writing_disabled` /
`_disable_reason` breaker pair, and a `batch_size`.  The queue carries
either enqueued message strings or the unique sentinel object.  File
appends are modelled as an append-only list of written lines, with the
outcome of each `open/write/flush` attempt supplied by an oracle. -/

inductive QItem
  | msg (s : String)
  | sentinel
deriving DecidableEq, Repr

def isSentinel : QItem → Bool
  | .sentinel => true
  | _ => false

/-- The non-sentinel items of a queue segment, in FIFO order. -/
def nonSentinels (q : List QItem) : List QItem :=
  q.filter (fun i => !isSentinel i)

/-- Outcome of one attempted `open(...)/write/flush` block, chosen by the
environment: success, or an exception of the given class. -/
inductive IOOutcome
  | ok
  | raise (c : ExnClass)
deriving DecidableEq, Repr

/-- The exception classes matched by the first handler
`except (PermissionError, OSError, IOError)` of both write paths. -/
def isPermClass : ExnClass → Bool
  | .permissionError => true
  | .osError => true
  | .ioError => true
  | _ => false

/-- Breaker state plus the contents of the target log file.
`disabled` is `_file_writing_disabled`, `reason` is `_disable_reason`. -/
structure FileSt where
  disabled : Bool
  reason : Option ExnClass
  file : List QItem
deriving DecidableEq, Repr

/-- The `with open(self.file_path, 'a') ... write ... flush` block:
on success every line is appended to the file, otherwise the oracle's
exception propagates to the surrounding handlers. -/
def rawAppend (fs : FileSt) (lines : List QItem) (io : IOOutcome) :
    Except ExnClass FileSt :=
  match io with
  | .ok => Except.ok { fs with file := fs.file ++ lines }
  | .raise c => Except.error c

/-- `AsyncLogWriter._write_batch`: no-op when the breaker is tripped;
a permission/OS-level failure trips the breaker and records the reason;
any other exception drops the batch but leaves the breaker alone. -/
def write_batch (fs : FileSt) (messages : List QItem) (io : IOOutcome) :
    FileSt :=
  if fs.disabled then fs
  else
    match rawAppend fs messages io with
    | Except.ok fs' => fs'
    | Except.error c =>
        if isPermClass c then { fs with disabled := true, reason := some c }
        else fs

/-- `AsyncLogWriter._write_to_file_direct`: the single-message direct
path, with the same breaker handling as `_write_batch`. -/
def write_to_file_direct (fs : FileSt) (message : String) (io : IOOutcome) :
    FileSt :=
  if fs.disabled then fs
  else
    match rawAppend fs [QItem.msg message] io with
    | Except.ok fs' => fs'
    | Except.error c =>
        if isPermClass c then { fs with disabled := true, reason := some c }
        else fs

/-- The full mutable state of an `AsyncLogWriter` instance.
`writerTask = none` models `_writer_task is None`; `some d` an existing
task whose `done()` is `d`. -/
structure WriterState where
  queue : List QItem
  queueMaxsize : Nat
  writerTask : Option Bool
  running : Bool
  fs : FileSt
  batchSize : Nat
deriving DecidableEq, Repr

/-- `AsyncLogWriter.__init__(file_path, batch_size=10, timeout=1.0)`:
the buffer is `asyncio.Queue()`, i.e. maxsize 0 (unbounded). -/
def AsyncLogWriter.init (batchSize : Nat) : WriterState :=
  { queue := [], queueMaxsize := 0, writerTask := none, running := false,
    fs := { disabled := false, reason := none, file := [] },
    batchSize := batchSize }

/-- `asyncio.Queue.put_nowait`: raises `QueueFull` exactly when the queue
has a positive maxsize and is at (or beyond) it. -/
def putNowait (maxsize : Nat) (q : List QItem) (i : QItem) :
    Except ExnClass (List QItem) :=
  if 0 < maxsize ∧ maxsize ≤ q.length then Except.error ExnClass.queueFull
  else Except.ok (q ++ [i])

/-- `AsyncLogWriter.write` (under `self._lock`): direct write when the
loop is not running; otherwise try a non-blocking enqueue, falling back
to the direct path when `QueueFull` is caught.  An uncaught exception
would surface as `Except.error`. -/
def write (st : WriterState) (message : String) (io : IOOutcome) :
    Except ExnClass WriterState :=
  if st.running = false then
    Except.ok { st with fs := write_to_file_direct st.fs message io }
  else
    match putNowait st.queueMaxsize st.queue (QItem.msg message) with
    | Except.ok q => Except.ok { st with queue := q }
    | Except.error _ =>
        Except.ok { st with fs := write_to_file_direct st.fs message io }

/-- `AsyncLogWriter.start`: schedules `_run_writer` (a new `_writer_task`)
when not running and no live task exists; touches nothing else — in
particular not `_running`. -/
def start (st : WriterState) : WriterState :=
  if st.running = false ∧ (st.writerTask = none ∨ st.writerTask = some true)
  then { st with writerTask := some false }
  else st

/-- The first statement of `_run_writer`: `self._running = True`, executed
only when the scheduled loop body actually begins to run. -/
def runWriterEnter (st : WriterState) : WriterState :=
  { st with running := true }

/-- The sentinel-case inner loop of `_run_writer`: `get_nowait` every
currently available item, appending the non-sentinel ones to the batch. -/
def drainBatch : List QItem → List QItem → List QItem
  | [], batch => batch
  | i :: rest, batch =>
      if i = QItem.sentinel then drainBatch rest batch
      else drainBatch rest (batch ++ [i])

/-- Result of one iteration of the `while self._running` loop:
the updated writer state, the local `batch`, the arguments of the
`_write_batch` calls made during the iteration, whether the loop hit
`break` (followed by `self._running = False`), and whether it did the
`await asyncio.sleep(0.01)` after a poll timeout. -/
structure LoopIterResult where
  st : WriterState
  batch : List QItem
  flushes : List (List QItem)
  finished : Bool
  slept : Bool
deriving DecidableEq, Repr

/-- One iteration of the `_run_writer` loop.  With an empty queue the
`asyncio.wait_for` poll times out (`asyncio.TimeoutError` branch);
otherwise `queue.get()` yields the head: the sentinel triggers drain,
final flush and `break`, an ordinary message is appended to the batch,
which is flushed once it reaches `batch_size`. -/
def loopIter (st : WriterState) (batch : List QItem) (io : IOOutcome) :
    LoopIterResult :=
  match st.queue with
  | [] =>
      if batch.isEmpty then
        { st := st, batch := batch, flushes := [], finished := false,
          slept := true }
      else
        { st := { st with fs := write_batch st.fs batch io },
          batch := [], flushes := [batch], finished := false, slept := true }
  | i :: rest =>
      if i = QItem.sentinel then
        let finalBatch := drainBatch rest batch
        if finalBatch.isEmpty then
          { st := { st with queue := [], running := false },
            batch := [], flushes := [], finished := true, slept := false }
        else
          let fs' := write_batch st.fs finalBatch io
          { st := { st with queue := [], fs := fs', running := false },
            batch := [], flushes := [finalBatch], finished := true,
            slept := false }
      else
        let b := batch ++ [i]
        if st.batchSize ≤ b.length then
          { st := { st with queue := rest, fs := write_batch st.fs b io },
            batch := [], flushes := [b], finished := false, slept := false }
        else
          { st := { st with queue := rest }, batch := b, flushes := [],
            finished := false, slept := false }

/-- A later file operation on the instance: a direct single-message write
or a batch flush, each with its own I/O outcome. -/
inductive WriteOp
  | direct (m : String) (io : IOOutcome)
  | flush (b : List QItem) (io : IOOutcome)

def applyOp (fs : FileSt) : WriteOp → FileSt
  | .direct m io => write_to_file_direct fs m io
  | .flush b io => write_batch fs b io

/-- A whole sequence of subsequent write/flush attempts. -/
def applyOps (fs : FileSt) (ops : List WriteOp) : FileSt :=
  ops.foldl applyOp fs

theorem drainBatch_eq (q : List QItem) :
    ∀ batch : List QItem, drainBatch q batch = batch ++ nonSentinels q := by
  induction q with
  | nil => intro b; simp [drainBatch, nonSentinels]
  | cons i rest ih =>
    intro b
    cases i with
    | sentinel => simp [drainBatch, nonSentinels, List.filter_cons, isSentinel, ih]
    | msg s => simp [drainBatch, nonSentinels, List.filter_cons, isSentinel, ih]

theorem sentinel_not_mem_nonSentinels (q : List QItem) :
    QItem.sentinel ∉ nonSentinels q := by
  simp [nonSentinels, List.mem_filter, isSentinel]

/-- C2: when the running loop receives the sentinel with `rest` still
queued behind it, it drains the whole queue, flushing exactly the prior
batch followed by every non-sentinel queued message (all `K` of them, in
FIFO order), terminates, and no flushed batch ever contains the sentinel. -/
theorem sentinel_drain_and_flush (st : WriterState) (batch rest : List QItem)
    (io : IOOutcome) (hq : st.queue = QItem.sentinel :: rest)
    (hb : QItem.sentinel ∉ batch) :
    (loopIter st batch io).finished = true ∧
    (loopIter st batch io).st.running = false ∧
    (loopIter st batch io).st.queue = [] ∧
    (loopIter st batch io).flushes.flatten = batch ++ nonSentinels rest ∧
    (∀ bf ∈ (loopIter st batch io).flushes, QItem.sentinel ∉ bf) := by
  have hd := drainBatch_eq rest batch
  have hmem : QItem.sentinel ∉ batch ++ nonSentinels rest := by
    intro hc
    rcases List.mem_append.mp hc with h | h
    · exact hb h
    · exact sentinel_not_mem_nonSentinels rest h
  by_cases hnil : batch ++ nonSentinels rest = []
  · have hd0 : drainBatch rest batch = [] := by rw [hd, hnil]
    simp [loopIter, hq, hd0, hnil]
  · have hcond : ¬ (batch = [] ∧ nonSentinels rest = []) := by
      intro hc
      exact hnil (by rw [hc.1, hc.2]; rfl)
    simp [loopIter, hq, hd, hcond, hmem]

/-- Witness for C2: a concrete running writer whose queue holds the
sentinel followed by two messages, with one message already batched:
the single final flush carries all three messages in order. -/
theorem sentinel_drain_and_flush_witness :
    (loopIter
        { queue := [QItem.sentinel, QItem.msg "a", QItem.msg "b"],
          queueMaxsize := 0, writerTask := some false, running := true,
          fs := { disabled := false, reason := none, file := [] },
          batchSize := 10 } [QItem.msg "x"] IOOutcome.ok).flushes.flatten =
      [QItem.msg "x"] ++ nonSentinels [QItem.msg "a", QItem.msg "b"] := by
  exact (sentinel_drain_and_flush
    { queue := [QItem.sentinel, QItem.msg "a", QItem.msg "b"],
      queueMaxsize := 0, writerTask := some false, running := true,
      fs := { disabled := false, reason := none, file := [] },
      batchSize := 10 } [QItem.msg "x"] [QItem.msg "a", QItem.msg "b"]
    IOOutcome.ok rfl (by decide)).2.2.2.1

theorem applyOp_disabled {fs : FileSt} (op : WriteOp)
    (h : fs.disabled = true) : applyOp fs op = fs := by
  cases op with
  | direct m io => simp [applyOp, write_to_file_direct, h]
  | flush b io => simp [applyOp, write_batch, h]

theorem applyOps_disabled {fs : FileSt} (ops : List WriteOp)
    (h : fs.disabled = true) : applyOps fs ops = fs := by
  induction ops with
  | nil => rfl
  | cons op rest ih =>
    show List.foldl applyOp (applyOp fs op) rest = fs
    rw [applyOp_disabled op h]
    exact ih

/-- C3: an enabled writer whose flush (batched or direct) fails with a
permission/OS-level exception trips the breaker, after which any sequence
of further writes and flushes leaves the file untouched; a flush failing
with any other exception class drops the batch (file unchanged) but
leaves the breaker enabled, so a later successful write still appends. -/
theorem breaker_perm_vs_transient (fs : FileSt) (b : List QItem)
    (ops : List WriteOp) (m : String) (c : ExnClass)
    (hen : fs.disabled = false) :
    (isPermClass c = true →
      (write_batch fs b (IOOutcome.raise c)).disabled = true ∧
      (write_to_file_direct fs m (IOOutcome.raise c)).disabled = true) ∧
    (∀ fs' : FileSt, fs'.disabled = true →
      (applyOps fs' ops).file = fs'.file) ∧
    (isPermClass c = false →
      write_batch fs b (IOOutcome.raise c) = fs ∧
      (write_to_file_direct fs m IOOutcome.ok).file =
        fs.file ++ [QItem.msg m]) := by
  refine ⟨?_, ?_, ?_⟩
  · intro hp
    constructor
    · simp [write_batch, rawAppend, hen, hp]
    · simp [write_to_file_direct, rawAppend, hen, hp]
  · intro fs' h
    rw [applyOps_disabled ops h]
  · intro hp
    constructor
    · simp [write_batch, rawAppend, hen, hp]
    · simp [write_to_file_direct, rawAppend, hen]

/-- Witness for C3: a permission-denied batch flush on a fresh file trips
the breaker, and a later direct write plus a later flush (both with
successful I/O available) leave the file unchanged; a transient failure
instead leaves the state as it was. -/
theorem breaker_perm_vs_transient_witness :
    (write_batch { disabled := false, reason := none, file := [] }
        [QItem.msg "a"] (IOOutcome.raise ExnClass.permissionError)).disabled
      = true ∧
    (applyOps { disabled := true, reason := some ExnClass.permissionError,
                file := [QItem.msg "z"] }
        [WriteOp.direct "b" IOOutcome.ok,
         WriteOp.flush [QItem.msg "c"] IOOutcome.ok]).file =
      [QItem.msg "z"] ∧
    write_batch { disabled := false, reason := none, file := [] }
        [QItem.msg "a"] (IOOutcome.raise ExnClass.otherExn) =
      { disabled := false, reason := none, file := [] } := by
  refine ⟨?_, ?_, ?_⟩
  · exact ((breaker_perm_vs_transient
      { disabled := false, reason := none, file := [] } [QItem.msg "a"] []
      "b" ExnClass.permissionError rfl).1 rfl).1
  · exact (breaker_perm_vs_transient
      { disabled := false, reason := none, file := [] } [QItem.msg "a"]
      [WriteOp.direct "b" IOOutcome.ok,
       WriteOp.flush [QItem.msg "c"] IOOutcome.ok]
      "b" ExnClass.permissionError rfl).2.1
      { disabled := true, reason := some ExnClass.permissionError,
        file := [QItem.msg "z"] } rfl
  · exact ((breaker_perm_vs_transient
      { disabled := false, reason := none, file := [] } [QItem.msg "a"] []
      "b" ExnClass.otherExn rfl).2.2 rfl).1

/-- C6: `write` returns normally to its caller for every writer state,
message and file-I/O outcome — each internal failure (full queue,
permission/OS error, any other exception) is caught inside. -/
theorem write_never_raises (st : WriterState) (m : String) (io : IOOutcome) :
    ∃ st', write st m io = Except.ok st' := by
  unfold write
  split
  · exact ⟨_, rfl⟩
  · split
    · exact ⟨_, rfl⟩
    · exact ⟨_, rfl⟩

/-- C7: an ordinary dequeued message is appended to the batch, which is
flushed and cleared exactly when its length reaches `batch_size`; a poll
timeout with a non-empty batch flushes it immediately, clears it, and is
followed by the short sleep before re-polling. -/
theorem batch_flush_policy (st : WriterState) (batch : List QItem)
    (m : String) (rest : List QItem) (io : IOOutcome) :
    (st.queue = QItem.msg m :: rest →
      (batch.length + 1 < st.batchSize →
        loopIter st batch io =
          { st := { st with queue := rest },
            batch := batch ++ [QItem.msg m], flushes := [],
            finished := false, slept := false }) ∧
      (st.batchSize ≤ batch.length + 1 →
        loopIter st batch io =
          { st := { st with queue := rest,
                            fs := write_batch st.fs (batch ++ [QItem.msg m]) io },
            batch := [], flushes := [batch ++ [QItem.msg m]],
            finished := false, slept := false })) ∧
    (st.queue = [] → batch ≠ [] →
      loopIter st batch io =
        { st := { st with fs := write_batch st.fs batch io },
          batch := [], flushes := [batch], finished := false,
          slept := true }) := by
  constructor
  · intro hq
    constructor
    · intro hlt
      have hnot : ¬ st.batchSize ≤ (batch ++ [QItem.msg m]).length := by
        simp only [List.length_append, List.length_cons, List.length_nil]
        omega
      simp [loopIter, hq, hnot]
      omega
    · intro hge
      have hyes : st.batchSize ≤ (batch ++ [QItem.msg m]).length := by
        simp only [List.length_append, List.length_cons, List.length_nil]
        omega
      simp [loopIter, hq, hyes]
      omega
  · intro hq hne
    simp [loopIter, hq, hne]

/-- Witness for C7 with `batch_size = 2`: a first message is only
appended, the second message completes the batch and flushes it, and a
poll timeout with one pending message flushes that message and sleeps. -/
theorem batch_flush_policy_witness :
    (loopIter
        { queue := [QItem.msg "a"], queueMaxsize := 0,
          writerTask := some false, running := true,
          fs := { disabled := false, reason := none, file := [] },
          batchSize := 2 } [] IOOutcome.ok).batch = [QItem.msg "a"] ∧
    (loopIter
        { queue := [QItem.msg "b"], queueMaxsize := 0,
          writerTask := some false, running := true,
          fs := { disabled := false, reason := none, file := [] },
          batchSize := 2 } [QItem.msg "a"] IOOutcome.ok).flushes =
      [[QItem.msg "a", QItem.msg "b"]] ∧
    (loopIter
        { queue := [], queueMaxsize := 0,
          writerTask := some false, running := true,
          fs := { disabled := false, reason := none, file := [] },
          batchSize := 2 } [QItem.msg "a"] IOOutcome.ok).slept = true := by
  refine ⟨?_, ?_, ?_⟩
  · rw [((batch_flush_policy
      { queue := [QItem.msg "a"], queueMaxsize := 0,
        writerTask := some false, running := true,
        fs := { disabled := false, reason := none, file := [] },
        batchSize := 2 } [] "a" [] IOOutcome.ok).1 rfl).1 (by decide)]
    rfl
  · rw [((batch_flush_policy
      { queue := [QItem.msg "b"], queueMaxsize := 0,
        writerTask := some false, running := true,
        fs := { disabled := false, reason := none, file := [] },
        batchSize := 2 } [QItem.msg "a"] "b" [] IOOutcome.ok).1 rfl).2
      (by decide)]
    rfl
  · rw [(batch_flush_policy
      { queue := [], queueMaxsize := 0,
        writerTask := some false, running := true,
        fs := { disabled := false, reason := none, file := [] },
        batchSize := 2 } [QItem.msg "a"] "a" [] IOOutcome.ok).2 rfl
      (by decide)]

/-- C8 counterexample: the source constructs the buffer as
`asyncio.Queue()` with no `maxsize`, i.e. maxsize 0 = unbounded, so
`put_nowait` succeeds on every possible queue content — there is no
sequence of writes under which the try-enqueue fails for fullness. -/
theorem logQueue_unbounded_counterexample :
    (AsyncLogWriter.init 10).queueMaxsize = 0 ∧
    ¬ ∃ (q : List QItem) (i : QItem),
      putNowait (AsyncLogWriter.init 10).queueMaxsize q i =
        Except.error ExnClass.queueFull := by
  refine ⟨rfl, ?_⟩
  rintro ⟨q, i, h⟩
  simp [putNowait, AsyncLogWriter.init] at h

/-- C8 (amended): while Running, a writer with the as-constructed
unbounded queue always enqueues (never blocks, drops, or falls back);
and in any hypothetical state where the queue is bounded and full — the
only way `put_nowait` can raise `QueueFull` — the caught failure routes
the message through the direct-write fallback instead of blocking on or
dropping it. -/
theorem write_enqueue_or_fallback (st : WriterState) (m : String)
    (io : IOOutcome) :
    (st.running = true → st.queueMaxsize = 0 →
      write st m io =
        Except.ok { st with queue := st.queue ++ [QItem.msg m] }) ∧
    (st.running = true → 0 < st.queueMaxsize →
      st.queueMaxsize ≤ st.queue.length →
      write st m io =
        Except.ok { st with fs := write_to_file_direct st.fs m io }) := by
  constructor
  · intro hr hm
    simp [write, hr, putNowait, hm]
  · intro hr h1 h2
    simp [write, hr, putNowait, h1, h2]

/-- Witness for C8 (amended): a running writer with the unbounded queue
enqueues the message; a running writer with a bounded queue of maxsize 1
already holding one item delivers through the direct path. -/
theorem write_enqueue_or_fallback_witness :
    write
        { queue := [QItem.msg "a"], queueMaxsize := 0,
          writerTask := some false, running := true,
          fs := { disabled := false, reason := none, file := [] },
          batchSize := 10 } "b" IOOutcome.ok =
      Except.ok
        { queue := [QItem.msg "a", QItem.msg "b"], queueMaxsize := 0,
          writerTask := some false, running := true,
          fs := { disabled := false, reason := none, file := [] },
          batchSize := 10 } ∧
    write
        { queue := [QItem.msg "a"], queueMaxsize := 1,
          writerTask := some false, running := true,
          fs := { disabled := false, reason := none, file := [] },
          batchSize := 10 } "b" IOOutcome.ok =
      Except.ok
        { queue := [QItem.msg "a"], queueMaxsize := 1,
          writerTask := some false, running := true,
          fs := { disabled := false, reason := none,
                  file := [QItem.msg "b"] },
          batchSize := 10 } := by
  constructor
  · exact (write_enqueue_or_fallback
      { queue := [QItem.msg "a"], queueMaxsize := 0,
        writerTask := some false, running := true,
        fs := { disabled := false, reason := none, file := [] },
        batchSize := 10 } "b" IOOutcome.ok).1 rfl rfl
  · rw [(write_enqueue_or_fallback
      { queue := [QItem.msg "a"], queueMaxsize := 1,
        writerTask := some false, running := true,
        fs := { disabled := false, reason := none, file := [] },
        batchSize := 10 } "b" IOOutcome.ok).2 rfl (by decide) (by decide)]
    rfl

/-- C10: `start` only schedules the background task — it never changes
the running flag, the queue, or the file state; the flag is set by the
first statement of the loop body itself; hence a `write` arriving after
`start` but before the scheduled loop has run is handled on the
direct-write path, leaving the queue untouched. -/
theorem start_schedules_without_running (st : WriterState) (m : String)
    (io : IOOutcome) :
    (start st).running = st.running ∧
    (start st).queue = st.queue ∧
    (start st).fs = st.fs ∧
    (runWriterEnter (start st)).running = true ∧
    (st.running = false →
      write (start st) m io =
        Except.ok { start st with
                    fs := write_to_file_direct st.fs m io }) := by
  have hframe : (start st).running = st.running ∧ (start st).queue = st.queue
      ∧ (start st).fs = st.fs := by
    unfold start
    split
    · exact ⟨rfl, rfl, rfl⟩
    · exact ⟨rfl, rfl, rfl⟩
  refine ⟨hframe.1, hframe.2.1, hframe.2.2, rfl, ?_⟩
  intro h
  have hr : (start st).running = false := by rw [hframe.1]; exact h
  rw [write, if_pos hr, hframe.2.2]

/-- Witness for C10: starting a fresh writer leaves it not running, and a
write immediately after `start` lands in the file via the direct path
with the queue still empty. -/
theorem start_schedules_without_running_witness :
    (start (AsyncLogWriter.init 10)).running = false ∧
    write (start (AsyncLogWriter.init 10)) "hello" IOOutcome.ok =
      Except.ok { queue := [], queueMaxsize := 0, writerTask := some false,
                  running := false,
                  fs := { disabled := false, reason := none,
                          file := [QItem.msg "hello"] },
                  batchSize := 10 } := by
  constructor
  · exact (start_schedules_without_running (AsyncLogWriter.init 10) "hello"
      IOOutcome.ok).1
  · rw [(start_schedules_without_running (AsyncLogWriter.init 10) "hello"
      IOOutcome.ok).2.2.2.2 rfl]
    rfl

end Gcli2Api
